import Mathlib

/-!
Shallow embedding of the ChimeraTK `ServerHistory` module
(src/ServerHistory.cc, include/ServerHistory.h).

The module maintains, per registered process variable, one fixed-length
ring buffer per scalar element (plus optional parallel timestamp buffers).
Registration builds a type-indexed registry; the runtime loop waits for a
change notification, identifies the source by its `TransferElementID`, and
rotates-and-republishes exactly the matching variable's buffers.

Modelling conventions:
* machine values stored in buffers are modelled as `Int` (the user type of
  an accessor only selects which per-kind list it lives in; the claims do
  not depend on arithmetic of a particular user type);
* timestamp values (`uint64_t` seconds since epoch) are modelled as `Nat`;
* the framework-assigned `TransferElementID` is modelled as a `Nat`; the
  framework guarantees per-accessor uniqueness, which the model reproduces
  with a fresh counter in the registry state;
* C++ exceptions (`ChimeraTK::logic_error`) are modelled by returning the
  error alongside the untouched pre-state (in the source every `throw`
  happens before any mutation of the registry);
* `RegisterPath(_prefix) / variableName` of the external DeviceAccess
  library is modelled as string concatenation with a `/` separator, the
  granularity at which the module uses it.
-/

namespace ServerHistory

/-- The closed set of ChimeraTK user types (`TemplateUserTypeMapNoVoid`
keys); used only as the index of the per-kind lists of the registry. -/
inductive ValueKind where
  | int8 | uint8 | int16 | uint16 | int32 | uint32
  | int64 | uint64 | float32 | float64 | boolean | string
deriving DecidableEq, Repr

/-- One `ArrayOutput` accessor: a named publish channel holding a
fixed-length array (the ring buffer contents), tagged with the module's
internal PV tag. -/
structure Output (α : Type) where
  name : String
  tags : List String
  values : List α
deriving DecidableEq, Repr

/-- `HistoryEntry` (include/ServerHistory.h): one data ring buffer per
scalar element, optional parallel timestamp buffers, and the flag fixed at
construction. -/
structure HistoryEntry where
  data : List (Output Int)
  timeStamp : List (Output Nat)
  withTimeStamps : Bool
deriving DecidableEq, Repr

/-- One element of an `AccessorList`: the `ArrayPushInput` (name, framework
identity, element count, current values, tags) paired with its
`HistoryEntry`. -/
structure Entry where
  inputName : String
  inputId : Nat
  nElements : Nat
  inputValues : List Int
  inputTags : List String
  hist : HistoryEntry
deriving DecidableEq, Repr

/-- Construction-time configuration of a `ServerHistory` module (all fixed
at construction; see the constructor parameters). -/
structure Config where
  moduleName : String
  historyLength : Nat
  inputTag : String
  enableTimeStamps : Bool
  histDir : String
deriving DecidableEq, Repr

/-- The registry: overall name set (`_overallVariableList`), the per-kind
accessor lists (`_accessorListMap`, flattened to one list of
kind-tagged entries; the fusion map's per-kind list is the subsequence of
entries carrying that kind), the per-kind name lists (`_nameListMap`), and
the framework's fresh-id counter. -/
structure State where
  overallVariableList : List String
  accessorLists : List (ValueKind × Entry)
  nameLists : List (ValueKind × String)
  nextId : Nat
deriving DecidableEq, Repr

/-- The registry of a freshly constructed module, before discovery. -/
def initState : State :=
  { overallVariableList := [], accessorLists := [], nameLists := [], nextId := 0 }

/-- Errors thrown by the module (`ChimeraTK::logic_error`), each carrying
what the message identifies. -/
inductive HistErr where
  /-- "ServerHistory: Variable name '`name`' already taken." -/
  | nameTaken (name : String)
  /-- "Cannot add '`name`' to History since a variable with that name is
  already registered." -/
  | cannotAdd (name : String)
  /-- "Path passed to BaseDAQ&lt;TRIGGERTYPE&gt;::addSource() not found!" -/
  | pathNotFound
  /-- "No variables are connected to the ServerHistory module. ..." -/
  | noVariables
deriving DecidableEq, Repr

/-- A leaf process-variable proxy as seen by discovery: fully qualified
path, value type, element count, tag set. -/
structure PV where
  fullyQualifiedPath : String
  valueType : ValueKind
  numberOfElements : Nat
  tags : List String
deriving DecidableEq, Repr

/-- `RegisterPath(_prefix) / variableName`: join with a single `/`. -/
def pathJoin (dir name : String) : String :=
  dir ++ "/" ++ name

/-- `boost::starts_with`, on the underlying character sequence. -/
def strStartsWith (s pre : String) : Bool :=
  s.toList.take pre.toList.length == pre.toList

/-- The tag attached to every PV generated by the module
(src/ServerHistory.cc lines 87-94): the module name with `_internal`
appended; the source appends the further `_module` suffix when the MODULE
NAME equals the inclusion tag. -/
def serverHistoryPVTag (cfg : Config) : String :=
  let t := cfg.moduleName ++ "_internal"
  if cfg.moduleName == cfg.inputTag then t ++ "_module" else t

/-- Modelled from the spec (section 4.2): the disambiguation the spec
describes, appending the suffix when the COMPUTED TAG equals the inclusion
tag. Kept separate from `serverHistoryPVTag` (the source's computation) to
compare the two. -/
def serverHistoryPVTagSpec (cfg : Config) : String :=
  let t := cfg.moduleName ++ "_internal"
  if t == cfg.inputTag then t ++ "_module" else t

/-- The data outputs created by `getAccessor` for a variable
(src/ServerHistory.cc lines 95-123): one buffer named `<dir>/<name>` for a
scalar, or `<dir>/<name>_<i>` per element index for an array; every buffer
default-initialised with `historyLength` elements. -/
def mkDataOutputs (cfg : Config) (historyName : String) (nElements : Nat) :
    List (Output Int) :=
  if nElements == 1 then
    [{ name := historyName, tags := [serverHistoryPVTag cfg],
       values := List.replicate cfg.historyLength 0 }]
  else
    (List.range nElements).map fun i =>
      { name := historyName ++ "_" ++ toString i, tags := [serverHistoryPVTag cfg],
        values := List.replicate cfg.historyLength 0 }

/-- The timestamp outputs created by `getAccessor`: parallel to the data
outputs, names with the `_timeStamps` suffix, only when timestamps are
enabled. -/
def mkTimeStampOutputs (cfg : Config) (historyName : String) (nElements : Nat) :
    List (Output Nat) :=
  if !cfg.enableTimeStamps then []
  else if nElements == 1 then
    [{ name := historyName ++ "_timeStamps", tags := [serverHistoryPVTag cfg],
       values := List.replicate cfg.historyLength 0 }]
  else
    (List.range nElements).map fun i =>
      { name := historyName ++ "_" ++ toString i ++ "_timeStamps",
        tags := [serverHistoryPVTag cfg],
        values := List.replicate cfg.historyLength 0 }

/-- The registry entry `getAccessor` constructs for one variable: the
`ArrayPushInput` sized to the element count and the `HistoryEntry` with
its per-element outputs; `freshId` is the framework-assigned identity of
the push input. -/
def mkEntry (cfg : Config) (freshId : Nat) (variableName : String)
    (nElements : Nat) : Entry :=
  { inputName := variableName
    inputId := freshId
    nElements := nElements
    inputValues := List.replicate nElements 0
    inputTags := [serverHistoryPVTag cfg]
    hist :=
      { data := mkDataOutputs cfg (pathJoin cfg.histDir variableName) nElements
        timeStamp := mkTimeStampOutputs cfg (pathJoin cfg.histDir variableName) nElements
        withTimeStamps := cfg.enableTimeStamps } }

/-- `ServerHistory::getAccessor` (src/ServerHistory.cc lines 70-125):
re-check the name for collision, record it, create the push input and the
per-element outputs, append to the per-kind lists. On error the registry
is returned untouched (the source throws before any mutation). -/
def getAccessor (cfg : Config) (s : State) (kind : ValueKind)
    (variableName : String) (nElements : Nat) : State × Option HistErr :=
  if s.overallVariableList.contains variableName then
    (s, some (.cannotAdd variableName))
  else
    ({ overallVariableList := variableName :: s.overallVariableList
       accessorLists := s.accessorLists ++ [(kind, mkEntry cfg s.nextId variableName nElements)]
       nameLists := s.nameLists ++ [(kind, variableName)]
       nextId := s.nextId + 1 }, none)

/-- `ServerHistory::addVariableFromModel` (src/ServerHistory.cc lines
38-63): skip silently when tag-checking is on and the inclusion tag is
absent, or when a non-trivial submodule filter does not prefix the name;
fail on a name collision; otherwise register through `getAccessor`. -/
def addVariableFromModel (cfg : Config) (s : State) (pv : PV)
    (submodule : String) (checkTag : Bool) : State × Option HistErr :=
  let name := pv.fullyQualifiedPath
  if checkTag && !(pv.tags.contains cfg.inputTag) then (s, none)
  else if submodule != "/" && !(strStartsWith name (submodule ++ "/")) then (s, none)
  else if s.overallVariableList.contains name then (s, some (.nameTaken name))
  else getAccessor cfg s pv.valueType name pv.numberOfElements

/-- Register a list of discovered PVs in order, stopping at the first
error (a thrown exception aborts the constructor's visit). -/
def registerAll (cfg : Config) : State → List PV → State × Option HistErr
  | s, [] => (s, none)
  | s, pv :: rest =>
    match addVariableFromModel cfg s pv "/" true with
    | (s', none) => registerAll cfg s' rest
    | (s', some e) => (s', some e)

/-- `ServerHistory::ServerHistory` (src/ServerHistory.cc lines 11-36)
after the external model walk: `found` tells whether `visitByPath` located
the directory to search (when it did not, no PV is visited); `pvs` are all
leaf PVs of the found directory in breadth-first order, of which the walk
keeps those carrying the inclusion tag (`Model::keepTag`). Zero matches is
not an error (only a console note). -/
def construct (cfg : Config) (found : Bool) (pvs : List PV) :
    Except HistErr State :=
  if !found then .error .pathNotFound
  else
    let matching := pvs.filter fun pv => pv.tags.contains cfg.inputTag
    match registerAll cfg initState matching with
    | (_, some e) => .error e
    | (s, none) => .ok s

/-- `ServerHistory::getNumberOfVariables`. -/
def getNumberOfVariables (s : State) : Nat :=
  s.overallVariableList.length

/-- An action performed by `prepare`, in order. -/
inductive PrepAction where
  /-- `incrementDataFaultCounter()`. -/
  | incFault
  /-- `writeAll()`: publish every configured output once, with its current
  (name, contents); data outputs and timestamp outputs listed. -/
  | publishAll (dataOuts : List (String × List Int)) (tsOuts : List (String × List Nat))
  /-- `decrementDataFaultCounter()`. -/
  | decFault
deriving DecidableEq, Repr

/-- All data outputs of the registry with their current contents. -/
def allDataOutputs (s : State) : List (String × List Int) :=
  s.accessorLists.flatMap fun ke => ke.2.hist.data.map fun o => (o.name, o.values)

/-- All timestamp outputs of the registry with their current contents. -/
def allTimeStampOutputs (s : State) : List (String × List Nat) :=
  s.accessorLists.flatMap fun ke => ke.2.hist.timeStamp.map fun o => (o.name, o.values)

/-- `ServerHistory::prepare` (src/ServerHistory.cc lines 156-164): throw
when no variable is registered; otherwise increment the data-fault
counter, write all outputs once, decrement the counter. -/
def prepare (s : State) : Except HistErr (List PrepAction) :=
  if getNumberOfVariables s == 0 then .error .noVariables
  else .ok [.incFault, .publishAll (allDataOutputs s) (allTimeStampOutputs s), .decFault]

/-! ### The update engine -/

/-- `std::rotate(begin, begin + 1, end)`: rotate the sequence left by one
position. -/
def rotateLeftOne (l : List α) : List α :=
  l.drop 1 ++ l.take 1

/-- `*(end - 1) = v`: overwrite the last slot. -/
def writeLast (l : List α) (v : α) : List α :=
  l.dropLast ++ [v]

/-- One ring-buffer update (src/ServerHistory.cc lines 136-138 resp.
141-145): rotate left by one, then write the new value into the last
slot. -/
def histUpdate (l : List α) (v : α) : List α :=
  writeLast (rotateLeftOne l) v

/-- Feed a sequence of observed values into a ring buffer, oldest
first. -/
def histFold (l : List α) (vs : List α) : List α :=
  vs.foldl histUpdate l

/-- A default (empty) output, standing for the C++ `std::vector::at`
out-of-range case that the registry's construction makes unreachable. -/
def dfltOut {α : Type} : Output α :=
  { name := "", tags := [], values := [] }

/-- The body of `Update::operator()` for one matching accessor
(src/ServerHistory.cc lines 135-148): for each element index, rotate the
data buffer and write the input's element into its last slot; when
timestamps are enabled do the same on the timestamp buffer with the
current wall-clock seconds `now`. -/
def updateMatchedEntry (now : Nat) (e : Entry) : Entry :=
  { e with hist :=
    { e.hist with
      data := (List.range e.nElements).map fun i =>
        let out := e.hist.data.getD i dfltOut
        { out with values := histUpdate out.values (e.inputValues.getD i 0) }
      timeStamp :=
        if e.hist.withTimeStamps then
          (List.range e.nElements).map fun i =>
            let out := e.hist.timeStamp.getD i dfltOut
            { out with values := histUpdate out.values now }
        else e.hist.timeStamp } }

/-- The names of the outputs the update loop publishes (`write()`) for a
matching accessor, in loop order: per element the data output, then, when
enabled, the timestamp output. -/
def entryPublishNames (e : Entry) : List String :=
  (List.range e.nElements).flatMap fun i =>
    (e.hist.data.getD i dfltOut).name ::
      (if e.hist.withTimeStamps then [(e.hist.timeStamp.getD i dfltOut).name] else [])

/-- `Update::operator()` on one registry entry: a non-matching identity
leaves the entry untouched and publishes nothing. -/
def updateEntry (now : Nat) (id : Nat) (e : Entry) : Entry × List String :=
  if e.inputId == id then (updateMatchedEntry now e, entryPublishNames e)
  else (e, [])

/-- `boost::fusion::for_each(_accessorListMap.table, Update(id))`
(src/ServerHistory.cc line 170): apply the update to every entry of every
per-kind list; also collect the published output names. -/
def updateStep (s : State) (id : Nat) (now : Nat) : State × List String :=
  ({ s with accessorLists := s.accessorLists.map fun ke => (ke.1, (updateEntry now id ke.2).1) },
   (s.accessorLists.map fun ke => (updateEntry now id ke.2).2).flatten)

/-- The effect of `group.readAny()` returning `id`: the framework fills
the new observation `vals` into the accessor that produced it. -/
def receiveValues (s : State) (id : Nat) (vals : List Int) : State :=
  { s with accessorLists := s.accessorLists.map fun ke =>
      (ke.1, if ke.2.inputId == id then { ke.2 with inputValues := vals } else ke.2) }

/-- One iteration of `ServerHistory::mainLoop` (src/ServerHistory.cc lines
166-172): receive one change notification (identity plus delivered
values), then run the update over the whole registry. -/
def mainLoopStep (s : State) (id : Nat) (vals : List Int) (now : Nat) :
    State × List String :=
  updateStep (receiveValues s id vals) id now

/-! ### Ring-buffer lemmas -/

theorem histUpdate_eq_drop {α : Type} (l : List α) (v : α) (h : l ≠ []) :
    histUpdate l v = l.drop 1 ++ [v] := by
  match l, h with
  | a :: t, _ =>
    simp [histUpdate, rotateLeftOne, writeLast]

theorem length_histUpdate {α : Type} (l : List α) (v : α) (h : l ≠ []) :
    (histUpdate l v).length = l.length := by
  match l, h with
  | a :: t, _ => simp [histUpdate_eq_drop]

theorem histFold_eq_drop {α : Type} (vs : List α) (l : List α) (h : l ≠ []) :
    histFold l vs = (l ++ vs).drop vs.length := by
  induction vs generalizing l with
  | nil => simp [histFold]
  | cons v vs ih =>
    match l, h with
    | a :: t, _ =>
      have hne : histUpdate (a :: t) v ≠ [] := by
        simp [histUpdate_eq_drop]
      have step : histFold (a :: t) (v :: vs) = histFold (histUpdate (a :: t) v) vs := by
        simp [histFold]
      rw [step, ih _ hne, histUpdate_eq_drop _ _ (by simp)]
      simp [List.drop]

/-! ### Output-creation lemmas -/

theorem length_mkDataOutputs (cfg : Config) (hn : String) (n : Nat) :
    (mkDataOutputs cfg hn n).length = n := by
  by_cases h : n = 1 <;> simp [mkDataOutputs, h]

theorem map_name_mkDataOutputs (cfg : Config) (hn : String) (n : Nat) :
    (mkDataOutputs cfg hn n).map Output.name =
      (if n = 1 then [hn] else (List.range n).map fun i => hn ++ "_" ++ toString i) := by
  by_cases h : n = 1 <;> simp [mkDataOutputs, h]

theorem values_mkDataOutputs (cfg : Config) (hn : String) (n : Nat) :
    ∀ o ∈ mkDataOutputs cfg hn n, o.values = List.replicate cfg.historyLength 0 := by
  intro o ho
  by_cases h : n = 1 <;> simp [mkDataOutputs, h] at ho
  · simp [ho]
  · obtain ⟨i, -, rfl⟩ := ho
    rfl

theorem length_mkTimeStampOutputs (cfg : Config) (hn : String) (n : Nat) :
    (mkTimeStampOutputs cfg hn n).length = (if cfg.enableTimeStamps then n else 0) := by
  by_cases he : cfg.enableTimeStamps <;> by_cases h : n = 1 <;>
    simp [mkTimeStampOutputs, he, h]

theorem map_name_mkTimeStampOutputs (cfg : Config) (hn : String) (n : Nat) :
    (mkTimeStampOutputs cfg hn n).map Output.name =
      (if cfg.enableTimeStamps then
        (mkDataOutputs cfg hn n).map (fun o => o.name ++ "_timeStamps")
       else []) := by
  by_cases he : cfg.enableTimeStamps <;> by_cases h : n = 1 <;>
    simp [mkTimeStampOutputs, mkDataOutputs, he, h]

theorem values_mkTimeStampOutputs (cfg : Config) (hn : String) (n : Nat) :
    ∀ o ∈ mkTimeStampOutputs cfg hn n, o.values = List.replicate cfg.historyLength 0 := by
  intro o ho
  by_cases he : cfg.enableTimeStamps <;> by_cases h : n = 1 <;>
    simp [mkTimeStampOutputs, he, h] at ho
  · simp [ho]
  · obtain ⟨i, -, rfl⟩ := ho
    rfl

theorem updateMatchedEntry_data_length (now : Nat) (e : Entry)
    (h : e.hist.data.length = e.nElements) :
    (updateMatchedEntry now e).hist.data.length = e.hist.data.length := by
  simp [updateMatchedEntry, h]

theorem updateMatchedEntry_ts_length (now : Nat) (e : Entry)
    (h : e.hist.withTimeStamps = true → e.hist.timeStamp.length = e.nElements) :
    (updateMatchedEntry now e).hist.timeStamp.length = e.hist.timeStamp.length := by
  cases hw : e.hist.withTimeStamps with
  | true => simp [updateMatchedEntry, hw, h hw]
  | false => simp [updateMatchedEntry, hw]

/-! ### The ring-buffer length invariant -/

/-- The structural invariant of a registry entry: the data buffers are in
one-to-one correspondence with the input's elements, timestamp buffers
likewise when enabled, and every ring buffer has exactly the configured
length `L`. -/
def entryInv (L : Nat) (e : Entry) : Prop :=
  e.hist.data.length = e.nElements ∧
  (e.hist.withTimeStamps = true → e.hist.timeStamp.length = e.nElements) ∧
  (∀ b ∈ e.hist.data, b.values.length = L) ∧
  (∀ b ∈ e.hist.timeStamp, b.values.length = L)

/-- The invariant over the whole registry. -/
def stateInv (L : Nat) (s : State) : Prop :=
  ∀ ke ∈ s.accessorLists, entryInv L ke.2

instance (L : Nat) (e : Entry) : Decidable (entryInv L e) := by
  unfold entryInv
  infer_instance

instance (L : Nat) (s : State) : Decidable (stateInv L s) := by
  unfold stateInv
  infer_instance

theorem entryInv_updateMatchedEntry (L now : Nat) (hL : 0 < L) (e : Entry)
    (h : entryInv L e) : entryInv L (updateMatchedEntry now e) := by
  obtain ⟨h1, h2, h3, h4⟩ := h
  refine ⟨by simp [updateMatchedEntry], ?_, ?_, ?_⟩
  · intro hw
    have hw' : e.hist.withTimeStamps = true := by
      simpa [updateMatchedEntry] using hw
    simp [updateMatchedEntry, hw', h2 hw']
  · intro b hb
    simp only [updateMatchedEntry, List.mem_map, List.mem_range] at hb
    obtain ⟨i, hi, rfl⟩ := hb
    have hiLen : i < e.hist.data.length := by rw [h1]; exact hi
    have hmem : e.hist.data.getD i dfltOut ∈ e.hist.data := by
      rw [List.getD_eq_getElem _ _ hiLen]
      exact List.getElem_mem hiLen
    have hv := h3 _ hmem
    have hne : (e.hist.data.getD i dfltOut).values ≠ [] :=
      List.length_pos.mp (hv ▸ hL)
    rw [length_histUpdate _ _ hne]
    exact hv
  · intro b hb
    simp only [updateMatchedEntry] at hb
    by_cases hw : e.hist.withTimeStamps = true
    · simp only [hw, if_true, List.mem_map, List.mem_range] at hb
      obtain ⟨i, hi, rfl⟩ := hb
      have hiLen : i < e.hist.timeStamp.length := by rw [h2 hw]; exact hi
      have hmem : e.hist.timeStamp.getD i dfltOut ∈ e.hist.timeStamp := by
        rw [List.getD_eq_getElem _ _ hiLen]
        exact List.getElem_mem hiLen
      have hv := h4 _ hmem
      have hne : (e.hist.timeStamp.getD i dfltOut).values ≠ [] :=
        List.length_pos.mp (hv ▸ hL)
      rw [length_histUpdate _ _ hne]
      exact hv
    · simp only [hw, if_false] at hb
      exact h4 b (by simpa using hb)

theorem entryInv_updateEntry (L now id : Nat) (hL : 0 < L) (e : Entry)
    (h : entryInv L e) : entryInv L (updateEntry now id e).1 := by
  unfold updateEntry
  split
  · exact entryInv_updateMatchedEntry L now hL e h
  · exact h

theorem entryInv_mkEntry (cfg : Config) (freshId : Nat) (name : String)
    (n : Nat) : entryInv cfg.historyLength (mkEntry cfg freshId name n) := by
  refine ⟨?_, ?_, ?_, ?_⟩
  · simp [mkEntry, length_mkDataOutputs]
  · intro hw
    have ht : cfg.enableTimeStamps = true := hw
    simp [mkEntry, length_mkTimeStampOutputs, ht]
  · intro b hb
    rw [values_mkDataOutputs cfg _ n b hb]
    simp
  · intro b hb
    rw [values_mkTimeStampOutputs cfg _ n b hb]
    simp

theorem stateInv_getAccessor (cfg : Config) (s : State) (kind : ValueKind)
    (name : String) (n : Nat) (h : stateInv cfg.historyLength s) :
    stateInv cfg.historyLength (getAccessor cfg s kind name n).1 := by
  unfold getAccessor
  split
  · exact h
  · intro ke hke
    rcases List.mem_append.mp hke with h' | h'
    · exact h ke h'
    · rw [List.mem_singleton.mp h']
      exact entryInv_mkEntry cfg s.nextId name n

theorem stateInv_addVariableFromModel (cfg : Config) (s : State) (pv : PV)
    (submodule : String) (checkTag : Bool) (h : stateInv cfg.historyLength s) :
    stateInv cfg.historyLength (addVariableFromModel cfg s pv submodule checkTag).1 := by
  unfold addVariableFromModel
  dsimp only
  split
  · exact h
  · split
    · exact h
    · split
      · exact h
      · exact stateInv_getAccessor cfg s pv.valueType pv.fullyQualifiedPath
          pv.numberOfElements h

theorem stateInv_receiveValues (L : Nat) (s : State) (id : Nat)
    (vals : List Int) (h : stateInv L s) :
    stateInv L (receiveValues s id vals) := by
  intro ke hke
  unfold receiveValues at hke
  obtain ⟨ke', hke', rfl⟩ := List.mem_map.mp hke
  have h' := h ke' hke'
  dsimp only
  split
  · exact h'
  · exact h'

theorem stateInv_updateStep (L : Nat) (hL : 0 < L) (s : State) (id now : Nat)
    (h : stateInv L s) : stateInv L (updateStep s id now).1 := by
  intro ke hke
  unfold updateStep at hke
  obtain ⟨ke', hke', rfl⟩ := List.mem_map.mp hke
  exact entryInv_updateEntry L now id hL ke'.2 (h ke' hke')

/-! ### Default-initialised buffers before the first update -/

/-- Every ring buffer of the registry still holds its default contents
(`historyLength` zeroes), as is the case after registration and before the
first update. -/
def defaultBuffers (L : Nat) (s : State) : Prop :=
  ∀ ke ∈ s.accessorLists,
    (∀ o ∈ ke.2.hist.data, o.values = List.replicate L (0 : Int)) ∧
    (∀ o ∈ ke.2.hist.timeStamp, o.values = List.replicate L (0 : Nat))

theorem defaultBuffers_initState (L : Nat) : defaultBuffers L initState := by
  intro ke hke
  simp [initState] at hke

theorem defaultBuffers_getAccessor (cfg : Config) (s : State) (kind : ValueKind)
    (name : String) (n : Nat) (h : defaultBuffers cfg.historyLength s) :
    defaultBuffers cfg.historyLength (getAccessor cfg s kind name n).1 := by
  unfold getAccessor
  split
  · exact h
  · intro ke hke
    rcases List.mem_append.mp hke with h' | h'
    · exact h ke h'
    · rw [List.mem_singleton.mp h']
      exact ⟨fun o ho => values_mkDataOutputs cfg _ n o ho,
             fun o ho => values_mkTimeStampOutputs cfg _ n o ho⟩

theorem defaultBuffers_addVariableFromModel (cfg : Config) (s : State) (pv : PV)
    (submodule : String) (checkTag : Bool) (h : defaultBuffers cfg.historyLength s) :
    defaultBuffers cfg.historyLength
      (addVariableFromModel cfg s pv submodule checkTag).1 := by
  unfold addVariableFromModel
  dsimp only
  split
  · exact h
  · split
    · exact h
    · split
      · exact h
      · exact defaultBuffers_getAccessor cfg s pv.valueType pv.fullyQualifiedPath
          pv.numberOfElements h

theorem defaultBuffers_registerAll (cfg : Config) :
    ∀ (pvs : List PV) (s : State), defaultBuffers cfg.historyLength s →
      defaultBuffers cfg.historyLength (registerAll cfg s pvs).1 := by
  intro pvs
  induction pvs with
  | nil => intro s h; simpa [registerAll] using h
  | cons pv rest ih =>
    intro s h
    have hpres := defaultBuffers_addVariableFromModel cfg s pv "/" true h
    unfold registerAll
    cases hr : addVariableFromModel cfg s pv "/" true with
    | mk s' e? =>
      rw [hr] at hpres
      cases e? with
      | none => exact ih s' hpres
      | some e => exact hpres

theorem construct_defaultBuffers (cfg : Config) (found : Bool) (pvs : List PV)
    (s : State) (h : construct cfg found pvs = .ok s) :
    defaultBuffers cfg.historyLength s := by
  unfold construct at h
  split at h
  · cases h
  · dsimp only at h
    have hall := defaultBuffers_registerAll cfg
      (pvs.filter fun pv => pv.tags.contains cfg.inputTag) initState
      (defaultBuffers_initState cfg.historyLength)
    cases hr : registerAll cfg initState
        (pvs.filter fun pv => pv.tags.contains cfg.inputTag) with
    | mk s' e? =>
      rw [hr] at h hall
      cases e? with
      | none =>
        cases h
        exact hall
      | some e => cases h

/-! ### Claim theorems -/

/-- C1: starting from a data ring buffer of length `L > 0` filled with the
default value, delivering the observations `vs` one by one (each update
rotating left by one and writing the value into the last slot, see
`histUpdate`) leaves the buffer equal to `L - k` defaults followed by
`v1..vk` when `k = |vs| < L`, and equal to the last `L` delivered values
in delivery order (newest last) when `k ≥ L`. -/
theorem rotation_correctness (L : Nat) (hL : 0 < L) (d : Int) (vs : List Int) :
    (vs.length < L →
      histFold (List.replicate L d) vs = List.replicate (L - vs.length) d ++ vs) ∧
    (L ≤ vs.length →
      histFold (List.replicate L d) vs = vs.drop (vs.length - L)) := by
  have hne : List.replicate L d ≠ [] := by
    simp [Nat.pos_iff_ne_zero.mp hL]
  have hfold := histFold_eq_drop vs (List.replicate L d) hne
  rw [List.drop_append_eq_append_drop, List.drop_replicate, List.length_replicate] at hfold
  constructor
  · intro hk
    rw [hfold, Nat.sub_eq_zero_of_le (Nat.le_of_lt hk)]
    simp
  · intro hk
    rw [hfold, Nat.sub_eq_zero_of_le hk]
    simp

/-- C1 witness: history length 3; two observations leave one default then
the two values; four observations leave the last three values. -/
theorem rotation_correctness_witness :
    0 < 3 ∧
      histFold (List.replicate 3 (0 : Int)) [1, 2] =
        List.replicate (3 - [1, 2].length) (0 : Int) ++ [1, 2] ∧
      histFold (List.replicate 3 (0 : Int)) [1, 2, 3, 4] =
        [1, 2, 3, 4].drop ([1, 2, 3, 4].length - 3) :=
  ⟨by decide,
   (rotation_correctness 3 (by decide) 0 [1, 2]).1 (by decide),
   (rotation_correctness 3 (by decide) 0 [1, 2, 3, 4]).2 (by decide)⟩

/-- A configuration in which the inclusion tag happens to equal the
module's name with `_internal` appended. -/
def cfgFoo : Config :=
  { moduleName := "Foo", historyLength := 4, inputTag := "Foo_internal",
    enableTimeStamps := false, histDir := "History" }

/-- C2: the source compares the module NAME (not the computed tag) with
the inclusion tag before appending the disambiguating suffix
(src/ServerHistory.cc line 91, against the intent of the comment on line
90). With module name `Foo` and inclusion tag `Foo_internal`, the tag the
source attaches to generated outputs equals the inclusion tag, while the
disambiguation the spec describes would have kept them apart. -/
theorem pv_tag_can_equal_inclusion_tag :
    serverHistoryPVTag cfgFoo = "Foo_internal" ∧
      serverHistoryPVTag cfgFoo = cfgFoo.inputTag ∧
      serverHistoryPVTagSpec cfgFoo ≠ cfgFoo.inputTag := by
  refine ⟨rfl, rfl, ?_⟩
  decide

/-- C3: registering a fully-qualified name already present anywhere in the
registry fails with a collision error carrying that name and returns the
registry untouched; the same holds for the inner `getAccessor` re-check,
whatever the value kind. -/
theorem duplicate_registration_fails (cfg : Config) (s : State) (pv : PV)
    (submodule : String) (checkTag : Bool)
    (htag : checkTag = false ∨ cfg.inputTag ∈ pv.tags)
    (hsub : submodule = "/" ∨ strStartsWith pv.fullyQualifiedPath (submodule ++ "/") = true)
    (hdup : pv.fullyQualifiedPath ∈ s.overallVariableList) :
    addVariableFromModel cfg s pv submodule checkTag =
      (s, some (.nameTaken pv.fullyQualifiedPath)) ∧
    ∀ (kind : ValueKind) (n : Nat) (name : String),
      name ∈ s.overallVariableList →
      getAccessor cfg s kind name n = (s, some (.cannotAdd name)) := by
  constructor
  · rcases htag with h | h <;> rcases hsub with h' | h' <;>
      simp [addVariableFromModel, h, h', hdup]
  · intro kind n name hmem
    simp [getAccessor, hmem]

/-- C3 witness: a registry already holding `/a/x` rejects a second
registration of `/a/x` and is left unchanged. -/
theorem duplicate_registration_fails_witness :
    ("/a/x" ∈ ["/a/x"]) ∧
      addVariableFromModel cfgFoo
        { overallVariableList := ["/a/x"], accessorLists := [], nameLists := [],
          nextId := 1 }
        { fullyQualifiedPath := "/a/x", valueType := .int32, numberOfElements := 1,
          tags := ["Foo_internal"] } "/" true =
      ({ overallVariableList := ["/a/x"], accessorLists := [], nameLists := [],
          nextId := 1 }, some (.nameTaken "/a/x")) :=
  ⟨by decide,
   (duplicate_registration_fails cfgFoo
      { overallVariableList := ["/a/x"], accessorLists := [], nameLists := [],
        nextId := 1 }
      { fullyQualifiedPath := "/a/x", valueType := .int32, numberOfElements := 1,
        tags := ["Foo_internal"] } "/" true
      (Or.inr (by decide)) (Or.inl rfl) (by decide)).1⟩

/-- C8: a candidate that fails tag-checking (tag-checking on, inclusion
tag absent from its tag set) or a non-trivial sub-path filter (filter not
`/` and not a prefix of the fully-qualified name followed by `/`) is
skipped silently: no error and the registry untouched. -/
theorem non_match_skipped (cfg : Config) (s : State) (pv : PV)
    (submodule : String) (checkTag : Bool)
    (h : (checkTag = true ∧ cfg.inputTag ∉ pv.tags) ∨
         (submodule ≠ "/" ∧ strStartsWith pv.fullyQualifiedPath (submodule ++ "/") = false)) :
    addVariableFromModel cfg s pv submodule checkTag = (s, none) := by
  unfold addVariableFromModel
  split
  · rfl
  next h1 =>
    dsimp only
    split
    · rfl
    next h2 =>
      exfalso
      rcases h with ⟨hc, ht⟩ | ⟨hs, hw⟩
      · exact h1 (by simp [hc, ht])
      · exact h2 (by simp [hs, hw])

/-- C8 witness: a scalar lacking the inclusion tag is skipped; a scalar
outside the sub-path filter is skipped. -/
theorem non_match_skipped_witness :
    (("Foo_internal" : String) ∉ ["other"]) ∧
      addVariableFromModel cfgFoo initState
        { fullyQualifiedPath := "/a/x", valueType := .int32, numberOfElements := 1,
          tags := ["other"] } "/" true = (initState, none) ∧
      addVariableFromModel cfgFoo initState
        { fullyQualifiedPath := "/a/x", valueType := .int32, numberOfElements := 1,
          tags := ["Foo_internal"] } "/b" false = (initState, none) :=
  ⟨by decide,
   non_match_skipped cfgFoo initState
     { fullyQualifiedPath := "/a/x", valueType := .int32, numberOfElements := 1,
       tags := ["other"] } "/" true (Or.inl ⟨rfl, by decide⟩),
   non_match_skipped cfgFoo initState
     { fullyQualifiedPath := "/a/x", valueType := .int32, numberOfElements := 1,
       tags := ["Foo_internal"] } "/b" false (Or.inr ⟨by decide, by decide⟩)⟩

/-- C9: when the breadth-first walk finds no directory, construction fails
with the path-not-found error, whatever PVs there are; a found directory
in which no PV carries the inclusion tag is not a failure: construction
succeeds with an empty registry. -/
theorem construct_failure_modes (cfg : Config) (pvs : List PV) :
    construct cfg false pvs = .error .pathNotFound ∧
      ((∀ pv ∈ pvs, cfg.inputTag ∉ pv.tags) →
        construct cfg true pvs = .ok initState) := by
  constructor
  · simp [construct]
  · intro h
    have hfilter : pvs.filter (fun pv => pv.tags.contains cfg.inputTag) = [] := by
      rw [List.filter_eq_nil_iff]
      intro pv hpv
      simpa using h pv hpv
    simp only [construct, Bool.not_true, Bool.false_eq_true, if_false, hfilter, registerAll]

/-- C9 witness: with one tag-less PV present, a failed walk errors and a
successful walk without tag matches yields the empty registry. -/
theorem construct_failure_modes_witness :
    construct cfgFoo false
        [{ fullyQualifiedPath := "/a/x", valueType := .int32, numberOfElements := 1,
           tags := ["other"] }] = .error .pathNotFound ∧
      construct cfgFoo true
        [{ fullyQualifiedPath := "/a/x", valueType := .int32, numberOfElements := 1,
           tags := ["other"] }] = .ok initState :=
  ⟨(construct_failure_modes cfgFoo
      [{ fullyQualifiedPath := "/a/x", valueType := .int32, numberOfElements := 1,
         tags := ["other"] }]).1,
   (construct_failure_modes cfgFoo
      [{ fullyQualifiedPath := "/a/x", valueType := .int32, numberOfElements := 1,
         tags := ["other"] }]).2 (by decide)⟩

/-- C5: a successful registration of a variable with element count `n`
appends exactly one registry entry whose history holds exactly `n` data
buffers, named `<dir>/<name>` when `n = 1` and `<dir>/<name>_<i>` for
`i < n` otherwise; exactly when timestamping is enabled there are `n`
parallel timestamp buffers, named with the `_timeStamps` suffix, of the
same (configured) length as the data buffers; and an update step never
changes either count. -/
theorem registration_output_counts (cfg : Config) (s : State) (kind : ValueKind)
    (name : String) (n : Nat) (e : Entry)
    (hfree : name ∉ s.overallVariableList)
    (he : e = mkEntry cfg s.nextId name n) :
    getAccessor cfg s kind name n =
      ({ overallVariableList := name :: s.overallVariableList
         accessorLists := s.accessorLists ++ [(kind, e)]
         nameLists := s.nameLists ++ [(kind, name)]
         nextId := s.nextId + 1 }, none) ∧
    e.hist.data.length = n ∧
    e.hist.data.map Output.name =
      (if n = 1 then [pathJoin cfg.histDir name]
       else (List.range n).map fun i => pathJoin cfg.histDir name ++ "_" ++ toString i) ∧
    e.hist.timeStamp.length = (if cfg.enableTimeStamps then n else 0) ∧
    e.hist.timeStamp.map Output.name =
      (if cfg.enableTimeStamps then e.hist.data.map (fun o => o.name ++ "_timeStamps")
       else []) ∧
    (∀ b ∈ e.hist.data, b.values.length = cfg.historyLength) ∧
    (∀ b ∈ e.hist.timeStamp, b.values.length = cfg.historyLength) ∧
    (∀ (now id : Nat),
      (updateEntry now id e).1.hist.data.length = e.hist.data.length ∧
      (updateEntry now id e).1.hist.timeStamp.length = e.hist.timeStamp.length) := by
  subst he
  refine ⟨by simp [getAccessor, hfree], length_mkDataOutputs cfg _ n,
    map_name_mkDataOutputs cfg _ n, length_mkTimeStampOutputs cfg _ n,
    map_name_mkTimeStampOutputs cfg _ n,
    fun b hb => by rw [values_mkDataOutputs cfg _ n b hb]; simp,
    fun b hb => by rw [values_mkTimeStampOutputs cfg _ n b hb]; simp,
    fun now id => ?_⟩
  unfold updateEntry
  split
  · constructor
    · exact updateMatchedEntry_data_length now _ (length_mkDataOutputs cfg _ n)
    · refine updateMatchedEntry_ts_length now _ (fun hw => ?_)
      have ht : cfg.enableTimeStamps = true := hw
      simp [mkEntry, length_mkTimeStampOutputs, ht]
  · exact ⟨rfl, rfl⟩

/-- C5 witness: registering a three-element array with timestamps enabled
creates three data buffers `History/a/v_0..2` and three timestamp buffers
with the `_timeStamps` suffix, all of the configured length 4, and an
update step keeps both counts. -/
theorem registration_output_counts_witness :
    (("/a/v" : String) ∉ (initState.overallVariableList)) ∧
      (mkEntry
          { moduleName := "H", historyLength := 4, inputTag := "history",
            enableTimeStamps := true, histDir := "History" }
          0 "/a/v" 3).hist.data.map Output.name =
        ["History//a/v_0", "History//a/v_1", "History//a/v_2"] ∧
      (mkEntry
          { moduleName := "H", historyLength := 4, inputTag := "history",
            enableTimeStamps := true, histDir := "History" }
          0 "/a/v" 3).hist.timeStamp.map Output.name =
        ["History//a/v_0_timeStamps", "History//a/v_1_timeStamps",
          "History//a/v_2_timeStamps"] := by
  have h := registration_output_counts
    { moduleName := "H", historyLength := 4, inputTag := "history",
      enableTimeStamps := true, histDir := "History" }
    initState .float64 "/a/v" 3
    (mkEntry
      { moduleName := "H", historyLength := 4, inputTag := "history",
        enableTimeStamps := true, histDir := "History" } 0 "/a/v" 3)
    (by decide) rfl
  refine ⟨by decide, ?_, ?_⟩
  · rw [h.2.2.1]
    decide
  · rw [h.2.2.2.2.1]
    decide

/-- C4: with a positive configured length `L`, every ring buffer (data and
timestamp) of every registered variable has length exactly `L`: the empty
registry satisfies the invariant, registration preserves and establishes
it for the new entry's buffers, and so does every update step of the run
loop (the rotate-plus-overwrite never changes a buffer's length). -/
theorem buffer_length_invariant (cfg : Config) (hL : 0 < cfg.historyLength) :
    stateInv cfg.historyLength initState ∧
    (∀ (s : State) (pv : PV) (submodule : String) (checkTag : Bool),
      stateInv cfg.historyLength s →
      stateInv cfg.historyLength (addVariableFromModel cfg s pv submodule checkTag).1) ∧
    (∀ (s : State) (id now : Nat), stateInv cfg.historyLength s →
      stateInv cfg.historyLength (updateStep s id now).1) ∧
    (∀ (s : State) (id : Nat) (vals : List Int) (now : Nat),
      stateInv cfg.historyLength s →
      stateInv cfg.historyLength (mainLoopStep s id vals now).1) := by
  refine ⟨?_, ?_, ?_, ?_⟩
  · intro ke hke
    simp [initState] at hke
  · intro s pv submodule checkTag h
    exact stateInv_addVariableFromModel cfg s pv submodule checkTag h
  · intro s id now h
    exact stateInv_updateStep cfg.historyLength hL s id now h
  · intro s id vals now h
    exact stateInv_updateStep cfg.historyLength hL _ id now
      (stateInv_receiveValues cfg.historyLength s id vals h)

/-- C4 witness: the invariant holds concretely after registering one
variable in the empty registry and running one update step on it. -/
theorem buffer_length_invariant_witness :
    0 < cfgFoo.historyLength ∧
      stateInv cfgFoo.historyLength
        (updateStep
          (addVariableFromModel cfgFoo initState
            { fullyQualifiedPath := "/a/x", valueType := .int32,
              numberOfElements := 2, tags := ["Foo_internal"] } "/" true).1
          0 99).1 :=
  ⟨by decide,
   (buffer_length_invariant cfgFoo (by decide)).2.2.1 _ 0 99
     ((buffer_length_invariant cfgFoo (by decide)).2.1 initState
       { fullyQualifiedPath := "/a/x", valueType := .int32,
         numberOfElements := 2, tags := ["Foo_internal"] } "/" true
       ((buffer_length_invariant cfgFoo (by decide)).1))⟩

/-- C6: `prepare` fails (with the no-variables configuration error) if and
only if the registry holds zero monitored variables; otherwise it performs
exactly one publish of all outputs — which, for a registry as produced by
construction, still hold their default-initialised contents — bracketed by
incrementing the data-fault marker before and decrementing it after. -/
theorem prepare_spec (s : State) :
    ((∃ e, prepare s = .error e) ↔ getNumberOfVariables s = 0) ∧
    (getNumberOfVariables s ≠ 0 →
      prepare s = .ok [.incFault,
        .publishAll (allDataOutputs s) (allTimeStampOutputs s), .decFault]) ∧
    (∀ (cfg : Config) (found : Bool) (pvs : List PV),
      construct cfg found pvs = .ok s →
      (∀ p ∈ allDataOutputs s, p.2 = List.replicate cfg.historyLength (0 : Int)) ∧
      (∀ p ∈ allTimeStampOutputs s, p.2 = List.replicate cfg.historyLength (0 : Nat))) := by
  refine ⟨⟨?_, ?_⟩, ?_, ?_⟩
  · rintro ⟨e, he⟩
    by_contra h0
    simp [prepare, h0] at he
  · intro h0
    exact ⟨.noVariables, by simp [prepare, h0]⟩
  · intro h0
    simp [prepare, h0]
  · intro cfg found pvs hc
    have hd := construct_defaultBuffers cfg found pvs s hc
    constructor
    · intro p hp
      simp only [allDataOutputs, List.mem_flatMap, List.mem_map] at hp
      obtain ⟨ke, hke, o, ho, hpe⟩ := hp
      rw [← hpe]
      exact (hd ke hke).1 o ho
    · intro p hp
      simp only [allTimeStampOutputs, List.mem_flatMap, List.mem_map] at hp
      obtain ⟨ke, hke, o, ho, hpe⟩ := hp
      rw [← hpe]
      exact (hd ke hke).2 o ho

/-- C6 witness: the empty registry makes `prepare` fail; after one
registration it publishes all outputs once between the fault-marker
increment and decrement. -/
theorem prepare_spec_witness :
    (∃ e, prepare initState = .error e) ∧
      prepare
          (addVariableFromModel cfgFoo initState
            { fullyQualifiedPath := "/a/x", valueType := .int32,
              numberOfElements := 1, tags := ["Foo_internal"] } "/" true).1 =
        .ok [.incFault,
          .publishAll
            (allDataOutputs
              (addVariableFromModel cfgFoo initState
                { fullyQualifiedPath := "/a/x", valueType := .int32,
                  numberOfElements := 1, tags := ["Foo_internal"] } "/" true).1)
            (allTimeStampOutputs
              (addVariableFromModel cfgFoo initState
                { fullyQualifiedPath := "/a/x", valueType := .int32,
                  numberOfElements := 1, tags := ["Foo_internal"] } "/" true).1),
          .decFault] :=
  ⟨(prepare_spec initState).1.mpr (by decide),
   (prepare_spec _).2.1 (by decide)⟩

theorem map_eq_self_of {α : Type} (l : List α) (f : α → α)
    (h : ∀ a ∈ l, f a = a) : l.map f = l := by
  induction l with
  | nil => rfl
  | cons a t ih =>
    simp only [List.map_cons, h a (by simp)]
    rw [ih fun x hx => h x (by simp [hx])]

/-- C10: a change notification whose source identity matches no registered
input handle leaves the whole registry state exactly as it was and
publishes nothing. -/
theorem unmatched_notification_noop (s : State) (id : Nat) (vals : List Int)
    (now : Nat) (h : ∀ ke ∈ s.accessorLists, ke.2.inputId ≠ id) :
    mainLoopStep s id vals now = (s, []) := by
  have hrecv : receiveValues s id vals = s := by
    unfold receiveValues
    rw [map_eq_self_of _ _ fun ke hke => by
      rw [beq_eq_false_iff_ne.mpr (h ke hke)]
      simp]
  have hstate : (s.accessorLists.map fun ke => (ke.1, (updateEntry now id ke.2).1))
      = s.accessorLists :=
    map_eq_self_of _ _ fun ke hke => by
      unfold updateEntry
      rw [beq_eq_false_iff_ne.mpr (h ke hke)]
      simp
  have hpub : (s.accessorLists.map fun ke => (updateEntry now id ke.2).2).flatten
      = [] := by
    rw [List.flatten_eq_nil_iff]
    intro x hx
    obtain ⟨ke, hke, rfl⟩ := List.mem_map.mp hx
    unfold updateEntry
    rw [beq_eq_false_iff_ne.mpr (h ke hke)]
    simp
  unfold mainLoopStep
  rw [hrecv]
  unfold updateStep
  rw [hstate, hpub]

/-- C10 witness: a two-entry registry with input identities 0 and 1 is
untouched by a notification carrying identity 7. -/
theorem unmatched_notification_noop_witness :
    (∀ ke ∈ ([(ValueKind.int32, mkEntry cfgFoo 0 "/a/x" 1),
              (ValueKind.int32, mkEntry cfgFoo 1 "/a/y" 1)] :
        List (ValueKind × Entry)), ke.2.inputId ≠ 7) ∧
      mainLoopStep
        { overallVariableList := ["/a/y", "/a/x"],
          accessorLists := [(ValueKind.int32, mkEntry cfgFoo 0 "/a/x" 1),
            (ValueKind.int32, mkEntry cfgFoo 1 "/a/y" 1)],
          nameLists := [(ValueKind.int32, "/a/x"), (ValueKind.int32, "/a/y")],
          nextId := 2 } 7 [5] 42 =
      ({ overallVariableList := ["/a/y", "/a/x"],
          accessorLists := [(ValueKind.int32, mkEntry cfgFoo 0 "/a/x" 1),
            (ValueKind.int32, mkEntry cfgFoo 1 "/a/y" 1)],
          nameLists := [(ValueKind.int32, "/a/x"), (ValueKind.int32, "/a/y")],
          nextId := 2 }, []) :=
  ⟨by decide,
   unmatched_notification_noop
     { overallVariableList := ["/a/y", "/a/x"],
       accessorLists := [(ValueKind.int32, mkEntry cfgFoo 0 "/a/x" 1),
         (ValueKind.int32, mkEntry cfgFoo 1 "/a/y" 1)],
       nameLists := [(ValueKind.int32, "/a/x"), (ValueKind.int32, "/a/y")],
       nextId := 2 } 7 [5] 42 (by decide)⟩

theorem entryPublishNames_setInput (e : Entry) (vals : List Int) :
    entryPublishNames { e with inputValues := vals } = entryPublishNames e :=
  rfl

/-- C7: in a registry holding two variables A and B with distinct input
identities, a notification carrying A's identity rotates and republishes
exactly A's buffers — B's entry is bit-for-bit unchanged and publishing
covers A's output names only — and symmetrically for B's identity;
consequently no output name of B (not shared with A) is republished by
A's notification. This holds even when A and B have the same value kind
and element count. -/
theorem demultiplexing (s : State) (kA kB : ValueKind) (eA eB : Entry)
    (hs : s.accessorLists = [(kA, eA), (kB, eB)])
    (hid : eA.inputId ≠ eB.inputId) (vals : List Int) (now : Nat) :
    (mainLoopStep s eA.inputId vals now).1.accessorLists =
      [(kA, updateMatchedEntry now { eA with inputValues := vals }), (kB, eB)] ∧
    (mainLoopStep s eA.inputId vals now).2 = entryPublishNames eA ∧
    (mainLoopStep s eB.inputId vals now).1.accessorLists =
      [(kA, eA), (kB, updateMatchedEntry now { eB with inputValues := vals })] ∧
    (mainLoopStep s eB.inputId vals now).2 = entryPublishNames eB ∧
    (∀ nm ∈ entryPublishNames eB, nm ∉ entryPublishNames eA →
      nm ∉ (mainLoopStep s eA.inputId vals now).2) := by
  have hid' : eB.inputId ≠ eA.inputId := Ne.symm hid
  have h2 : (mainLoopStep s eA.inputId vals now).2 = entryPublishNames eA := by
    simp [mainLoopStep, updateStep, receiveValues, updateEntry, hs, hid',
      entryPublishNames_setInput]
  refine ⟨?_, h2, ?_, ?_, ?_⟩
  · simp [mainLoopStep, updateStep, receiveValues, updateEntry, hs, hid']
  · simp [mainLoopStep, updateStep, receiveValues, updateEntry, hs, hid]
  · simp [mainLoopStep, updateStep, receiveValues, updateEntry, hs, hid,
      entryPublishNames_setInput]
  · intro nm _ hnm
    rw [h2]
    exact hnm

/-- C7 witness: two scalar int32 variables with identities 0 and 1; the
notification with identity 0 updates and publishes only the first, leaving
the second untouched. -/
theorem demultiplexing_witness :
    ((mkEntry cfgFoo 0 "/a/x" 1).inputId ≠ (mkEntry cfgFoo 1 "/a/y" 1).inputId) ∧
      (mainLoopStep
          { overallVariableList := ["/a/y", "/a/x"],
            accessorLists := [(ValueKind.int32, mkEntry cfgFoo 0 "/a/x" 1),
              (ValueKind.int32, mkEntry cfgFoo 1 "/a/y" 1)],
            nameLists := [(ValueKind.int32, "/a/x"), (ValueKind.int32, "/a/y")],
            nextId := 2 } (mkEntry cfgFoo 0 "/a/x" 1).inputId [5] 42).1.accessorLists =
        [(ValueKind.int32,
          updateMatchedEntry 42 { mkEntry cfgFoo 0 "/a/x" 1 with inputValues := [5] }),
         (ValueKind.int32, mkEntry cfgFoo 1 "/a/y" 1)] ∧
      (mainLoopStep
          { overallVariableList := ["/a/y", "/a/x"],
            accessorLists := [(ValueKind.int32, mkEntry cfgFoo 0 "/a/x" 1),
              (ValueKind.int32, mkEntry cfgFoo 1 "/a/y" 1)],
            nameLists := [(ValueKind.int32, "/a/x"), (ValueKind.int32, "/a/y")],
            nextId := 2 } (mkEntry cfgFoo 0 "/a/x" 1).inputId [5] 42).2 =
        entryPublishNames (mkEntry cfgFoo 0 "/a/x" 1) :=
  ⟨by decide,
   (demultiplexing
      { overallVariableList := ["/a/y", "/a/x"],
        accessorLists := [(ValueKind.int32, mkEntry cfgFoo 0 "/a/x" 1),
          (ValueKind.int32, mkEntry cfgFoo 1 "/a/y" 1)],
        nameLists := [(ValueKind.int32, "/a/x"), (ValueKind.int32, "/a/y")],
        nextId := 2 } ValueKind.int32 ValueKind.int32
      (mkEntry cfgFoo 0 "/a/x" 1) (mkEntry cfgFoo 1 "/a/y" 1)
      rfl (by decide) [5] 42).1,
   (demultiplexing
      { overallVariableList := ["/a/y", "/a/x"],
        accessorLists := [(ValueKind.int32, mkEntry cfgFoo 0 "/a/x" 1),
          (ValueKind.int32, mkEntry cfgFoo 1 "/a/y" 1)],
        nameLists := [(ValueKind.int32, "/a/x"), (ValueKind.int32, "/a/y")],
        nextId := 2 } ValueKind.int32 ValueKind.int32
      (mkEntry cfgFoo 0 "/a/x" 1) (mkEntry cfgFoo 1 "/a/y" 1)
      rfl (by decide) [5] 42).2.1⟩

end ServerHistory
